import Mathlib

/-!
Verification development for the libxmtp client core.

The definitions below are a shallow embedding of the Rust source:
* `Assoc` embeds the identity association log of
  `xmtp_id/src/associations/mod.rs` (the `apply_update` / `get_state`
  wrappers are translated directly from that file; the underlying
  `update_state` action semantics lives in `association_log.rs`, which is
  not part of the provided sources, and is therefore modelled from the
  specification, section 4.1).
* `Mls` embeds the group state machine pieces of
  `xmtp_mls/src/groups/mod.rs` and `xmtp_mls/src/client.rs` that the
  claims refer to (admin-list rewriting, member limits, welcome
  processing, message sending, and `process_for_id` cursor handling).

Machine integers are modelled as `Nat`/`Int`; the `u64 -> i64` cast that
`process_for_id` performs is made explicit. Fallible Rust functions are
translated to `Except`.
-/

namespace Assoc

/-- Kind of an association-log member (`member.rs`): a wallet address or an
installation key. -/
inductive MemberKind
  | Address
  | Installation
deriving DecidableEq, Repr

/-- Tagged member identifier (`member.rs`): `Address(String)` or
`Installation(Vec<u8>)`. -/
inductive MemberIdentifier
  | address (a : String)
  | installation (k : List Nat)
deriving DecidableEq, Repr

/-- The kind carried by a member identifier. -/
def MemberIdentifier.kind : MemberIdentifier → MemberKind
  | .address _ => .Address
  | .installation _ => .Installation

/-- Signature kinds appearing in the association log. -/
inductive SignatureKind
  | Erc191
  | InstallationKey
  | LegacyDelegated
deriving DecidableEq, Repr

/-- A signature that has already passed cryptographic verification
(`verified_signature.rs`): the crypto itself is external, the log only
inspects the recovered signer, the kind and the raw bytes. -/
structure VerifiedSignature where
  signer : MemberIdentifier
  kind : SignatureKind
  raw_bytes : List Nat
deriving DecidableEq, Repr

/-- A member record of an `AssociationState` (spec section 3). -/
structure Member where
  identifier : MemberIdentifier
  added_by_entity : Option MemberIdentifier
  client_timestamp_ns : Nat
deriving DecidableEq, Repr

/-- The association state (spec section 3): inbox id, recovery address,
members, and the set of signature bytes already consumed. -/
structure AssociationState where
  inbox_id : String
  recovery_address : String
  members : List Member
  seen_signatures : List (List Nat)
deriving DecidableEq, Repr

/-- Modelled from the spec: `generate_inbox_id` (`hashes.rs`, not under
src/) deterministically derives the inbox id from
`(initial_account_address, nonce)`; the sha256 hash is modelled by an
injective pairing of the two inputs. -/
def generate_inbox_id (address : String) (nonce : Nat) : String :=
  address ++ "/" ++ toString nonce

/-- Look a member up by identifier. -/
def AssociationState.get (s : AssociationState) (id : MemberIdentifier) :
    Option Member :=
  s.members.find? fun m => decide (m.identifier = id)

/-- Replay check: have these raw signature bytes been used before? -/
def AssociationState.hasSeen (s : AssociationState) (bytes : List Nat) : Bool :=
  decide (bytes ∈ s.seen_signatures)

/-- Payload of the `CreateInbox` action. -/
structure CreateInbox where
  nonce : Nat
  account_address : String
  initial_address_signature : VerifiedSignature
deriving DecidableEq, Repr

/-- Payload of the `AddAssociation` action. -/
structure AddAssociation where
  new_member_signature : VerifiedSignature
  existing_member_signature : VerifiedSignature
  new_member_identifier : MemberIdentifier
deriving DecidableEq, Repr

/-- Payload of the `RevokeAssociation` action. -/
structure RevokeAssociation where
  recovery_address_signature : VerifiedSignature
  revoked_member : MemberIdentifier
deriving DecidableEq, Repr

/-- Payload of the `ChangeRecoveryAddress` action. -/
structure ChangeRecoveryAddress where
  recovery_address_signature : VerifiedSignature
  new_recovery_address : String
deriving DecidableEq, Repr

/-- The four association-log actions. -/
inductive Action
  | createInbox (c : CreateInbox)
  | addAssociation (a : AddAssociation)
  | revokeAssociation (r : RevokeAssociation)
  | changeRecoveryAddress (c : ChangeRecoveryAddress)
deriving DecidableEq, Repr

/-- Association-log errors (spec section 4.1; `MultipleCreate` covers the
"state must be None" precondition of `CreateInbox`). -/
inductive AssociationError
  | NotCreated
  | MultipleCreate
  | MissingExistingMember
  | NewMemberIdSignatureMismatch
  | MemberNotAllowed (existing target : MemberKind)
  | Replay
  | SignatureVerification
deriving DecidableEq, Repr

/-- An identity update: a batch of actions sharing an inbox id and a
client timestamp. -/
structure IdentityUpdate where
  inbox_id : String
  client_timestamp_ns : Nat
  actions : List Action
deriving DecidableEq, Repr

/-- Kind rule table of spec section 4.1: an address may add an address or
an installation; an installation may only add an address. -/
def allowedAdd : MemberKind → MemberKind → Bool
  | .Address, _ => true
  | .Installation, .Address => true
  | .Installation, .Installation => false

/-- Insert (or replace) a member record keyed by identifier. -/
def putMember (members : List Member) (m : Member) : List Member :=
  (members.filter fun x => !decide (x.identifier = m.identifier)) ++ [m]

/-- One step of the revocation cascade: add to the doomed set every member
whose `added_by_entity` is already doomed. -/
def cascadeStep (members : List Member) (doomed : List MemberIdentifier) :
    List MemberIdentifier :=
  doomed ++
    (members.filter fun m =>
        decide ((∃ p ∈ doomed, m.added_by_entity = some p) ∧ m.identifier ∉ doomed)).map
      (fun m => m.identifier)

/-- Iterate the cascade to a fixed point; `members.length` rounds suffice
since each productive round enlarges the doomed set. -/
def cascadeClosure : Nat → List Member → List MemberIdentifier → List MemberIdentifier
  | 0, _, doomed => doomed
  | n + 1, members, doomed => cascadeClosure n members (cascadeStep members doomed)

/-- Modelled from the spec: the per-action transition of the association
log (`association_log.rs`, not under src/), following the preconditions of
spec section 4.1 and the behaviour pinned down by the tests in
`associations/mod.rs`. -/
def applyAction (st : Option AssociationState) (ts : Nat) :
    Action → Except AssociationError AssociationState
  | .createInbox c =>
    match st with
    | some _ => .error .MultipleCreate
    | none =>
      if c.initial_address_signature.signer = MemberIdentifier.address c.account_address then
        .ok
          { inbox_id := generate_inbox_id c.account_address c.nonce
            recovery_address := c.account_address
            members := [⟨.address c.account_address, none, ts⟩]
            seen_signatures := [c.initial_address_signature.raw_bytes] }
      else .error .MissingExistingMember
  | .addAssociation a =>
    match st with
    | none => .error .NotCreated
    | some s =>
      if s.hasSeen a.existing_member_signature.raw_bytes ||
          s.hasSeen a.new_member_signature.raw_bytes then
        .error .Replay
      else
        match s.get a.existing_member_signature.signer with
        | none => .error .MissingExistingMember
        | some existing =>
          if a.new_member_signature.signer = a.new_member_identifier then
            if allowedAdd existing.identifier.kind a.new_member_identifier.kind then
              .ok
                { s with
                  members := putMember s.members
                    ⟨a.new_member_identifier, some existing.identifier, ts⟩
                  seen_signatures := s.seen_signatures ++
                    [a.existing_member_signature.raw_bytes,
                      a.new_member_signature.raw_bytes] }
            else
              .error (.MemberNotAllowed existing.identifier.kind
                a.new_member_identifier.kind)
          else .error .NewMemberIdSignatureMismatch
  | .revokeAssociation r =>
    match st with
    | none => .error .NotCreated
    | some s =>
      if s.hasSeen r.recovery_address_signature.raw_bytes then .error .Replay
      else if r.recovery_address_signature.signer =
          MemberIdentifier.address s.recovery_address then
        .ok
          { s with
            members :=
              s.members.filter fun m =>
                !decide (m.identifier ∈
                  cascadeClosure s.members.length s.members [r.revoked_member])
            seen_signatures := s.seen_signatures ++
              [r.recovery_address_signature.raw_bytes] }
      else .error .MissingExistingMember
  | .changeRecoveryAddress c =>
    match st with
    | none => .error .NotCreated
    | some s =>
      if s.hasSeen c.recovery_address_signature.raw_bytes then .error .Replay
      else if c.recovery_address_signature.signer =
          MemberIdentifier.address s.recovery_address then
        .ok
          { s with
            recovery_address := c.new_recovery_address
            seen_signatures := s.seen_signatures ++
              [c.recovery_address_signature.raw_bytes] }
      else .error .MissingExistingMember

/-- Apply the actions of one update in order, threading the state. -/
def applyActions (ts : Nat) :
    Option AssociationState → List Action → Except AssociationError AssociationState
  | none, [] => .error .NotCreated
  | some s, [] => .ok s
  | st, a :: rest =>
    match applyAction st ts a with
    | .error e => .error e
    | .ok s => applyActions ts (some s) rest

/-- Translation of `IdentityUpdate::update_state`: apply every action of the update. -/
def IdentityUpdate.update_state (u : IdentityUpdate)
    (st : Option AssociationState) (ts : Nat) :
    Except AssociationError AssociationState :=
  applyActions ts st u.actions

/-- Translation of `apply_update` from `associations/mod.rs` (lines 22-27): apply a single
`IdentityUpdate` to an existing `AssociationState`. -/
def apply_update (initial_state : AssociationState) (update : IdentityUpdate) :
    Except AssociationError AssociationState :=
  update.update_state (some initial_state) update.client_timestamp_ns

/-- The loop body of `get_state`: thread an optional state through the
updates, stopping at the first error. -/
def getStateGo :
    Option AssociationState → List IdentityUpdate →
      Except AssociationError (Option AssociationState)
  | st, [] => .ok st
  | st, u :: us =>
    match u.update_state st u.client_timestamp_ns with
    | .error e => .error e
    | .ok s => getStateGo (some s) us

/-- The `state.ok_or(AssociationError::NotCreated)` step closing
`get_state`. -/
def finishGo :
    Except AssociationError (Option AssociationState) →
      Except AssociationError AssociationState
  | .error e => .error e
  | .ok none => .error .NotCreated
  | .ok (some s) => .ok s

/-- Translation of `get_state` from `associations/mod.rs` (lines 30-40): fold the updates
over `None`, and fail with `NotCreated` when no update produced a state. -/
def get_state (updates : List IdentityUpdate) :
    Except AssociationError AssociationState :=
  finishGo (getStateGo none updates)

/-- The iterated single-step application of the claim: a left fold of
`apply_update` over an initial result. -/
def foldApply (init : Except AssociationError AssociationState)
    (updates : List IdentityUpdate) : Except AssociationError AssociationState :=
  updates.foldl
    (fun acc u =>
      match acc with
      | .error e => .error e
      | .ok s => apply_update s u)
    init

theorem foldApply_error (e : AssociationError) (us : List IdentityUpdate) :
    foldApply (.error e) us = .error e := by
  induction us with
  | nil => rfl
  | cons u us ih => simpa [foldApply, List.foldl] using ih

theorem getStateGo_some_eq_foldApply (us : List IdentityUpdate)
    (s : AssociationState) :
    finishGo (getStateGo (some s) us) = foldApply (.ok s) us := by
  induction us generalizing s with
  | nil => rfl
  | cons u us ih =>
    rw [getStateGo]
    cases h : u.update_state (some s) u.client_timestamp_ns with
    | error e =>
      simp only [foldApply, List.foldl, apply_update, h, finishGo]
      exact (foldApply_error e us).symm
    | ok t =>
      simp only [foldApply, List.foldl, apply_update, h]
      exact ih t

/-- C1: for every non-empty sequence of identity updates, `get_state`
equals the left fold of `apply_update` seeded with the first update
applied to the empty (`None`) state. The equality is proved
unconditionally, hence in particular whenever every update succeeds. -/
theorem get_state_eq_iterated_apply_update (u : IdentityUpdate)
    (us : List IdentityUpdate) :
    get_state (u :: us) =
      foldApply (u.update_state none u.client_timestamp_ns) us := by
  rw [get_state, getStateGo]
  cases h : u.update_state none u.client_timestamp_ns with
  | error e =>
    simp only [h, finishGo]
    exact (foldApply_error e us).symm
  | ok s =>
    simp only [h]
    exact getStateGo_some_eq_foldApply us s

/-- C9: `get_state` applied to an empty sequence of identity updates
returns the `NotCreated` error; it never fabricates an
`AssociationState` without at least one update. -/
theorem get_state_nil_not_created :
    get_state [] = .error AssociationError.NotCreated := rfl

end Assoc

namespace Mls

/-- Entity kinds of the `refresh_state` cursor table
(`storage/encrypted_store/schema.rs`; spec section 3 lists
`{Group, Welcome, IdentityUpdate}`). -/
inductive EntityKind
  | Group
  | Welcome
  | IdentityUpdateKind
deriving DecidableEq, Repr

/-- Errors of `MessageProcessingError` (`client.rs`) that the embedded
fragment can produce. -/
inductive MessageProcessingError
  | AlreadyProcessed (id : Nat)
  | InvalidPayload
  | WelcomeProcessing (cause : String)
  | Generic (cause : String)
deriving DecidableEq, Repr

/-- The store state visible to a transaction: the `refresh_state` cursor
rows plus the application tables the processing closure writes
(abstracted as `σ`). -/
structure TxState (σ : Type) where
  cursors : List ((List Nat × EntityKind) × Int)
  app : σ
deriving DecidableEq, Repr

/-- Read the stored cursor for an entity; a missing row reads as 0. -/
def lookupCursor (cursors : List ((List Nat × EntityKind) × Int))
    (id : List Nat) (kind : EntityKind) : Int :=
  match cursors.find? fun e => decide (e.1 = (id, kind)) with
  | some e => e.2
  | none => 0

/-- Write the cursor row for an entity. -/
def setCursor (cursors : List ((List Nat × EntityKind) × Int))
    (id : List Nat) (kind : EntityKind) (v : Int) :
    List ((List Nat × EntityKind) × Int) :=
  (cursors.filter fun e => !decide (e.1 = (id, kind))) ++ [((id, kind), v)]

/-- Modelled from the spec: `update_cursor(entity_id, kind, new) -> bool`
(`refresh_state.rs`, not under src/) updates only when `new > current` and
returns whether it updated (spec section 4.3). -/
def update_cursor (s : TxState σ) (id : List Nat) (kind : EntityKind)
    (v : Int) : Bool × TxState σ :=
  let current := lookupCursor s.cursors id kind
  if v > current then (true, { s with cursors := setCursor s.cursors id kind v })
  else (false, s)

/-- Modelled from the spec: the store transaction helper of section 4.3
(`encrypted_store`, not under src/) — the body's writes are committed when
it returns `Ok` and rolled back entirely when it returns `Err`. -/
def transaction (f : TxState σ → Except ε (α × TxState σ)) (s : TxState σ) :
    Except ε α × TxState σ :=
  match f s with
  | .ok (v, s') => (.ok v, s')
  | .error e => (.error e, s)

/-- The `cursor as i64` cast of `process_for_id` (`client.rs` line 410):
a `u64` reinterpreted as a signed 64-bit value. -/
def i64_of_u64 (c : Nat) : Int :=
  if c < 2 ^ 63 then (c : Int) else (c : Int) - 2 ^ 64

/-- Translation of `process_for_id` (`client.rs` lines 396-416): inside one store
transaction, advance the cursor; bail out with `AlreadyProcessed` when the
cursor did not advance, otherwise run the processing closure. -/
def process_for_id (entity_id : List Nat) (entity_kind : EntityKind)
    (cursor : Nat)
    (process_envelope : TxState σ → Except MessageProcessingError (α × TxState σ))
    (s : TxState σ) : Except MessageProcessingError α × TxState σ :=
  transaction
    (fun st =>
      let r := update_cursor st entity_id entity_kind (i64_of_u64 cursor)
      if r.1 then process_envelope r.2
      else .error (.AlreadyProcessed cursor))
    s

theorem i64_of_u64_le (c : Nat) : i64_of_u64 c ≤ (c : Int) := by
  unfold i64_of_u64
  split
  · exact le_refl _
  · omega

/-- C2 (counterexample): with an empty cursor table (stored cursor 0) and
candidate cursor `2^63`, the candidate is strictly greater than the stored
cursor, yet `process_for_id` returns `AlreadyProcessed` and leaves the
state untouched — the `as i64` cast wraps the candidate negative. The
claim's "whenever c is strictly greater, the processing function runs"
is therefore false as stated. -/
theorem process_for_id_large_cursor_counterexample :
    lookupCursor ([] : List ((List Nat × EntityKind) × Int)) [0]
        EntityKind.Welcome < ((2 ^ 63 : Nat) : Int) ∧
      process_for_id [0] EntityKind.Welcome (2 ^ 63)
          (fun st => .ok (0, { st with app := st.app + 1 }))
          (TxState.mk ([] : List ((List Nat × EntityKind) × Int)) (0 : Nat)) =
        (.error (.AlreadyProcessed (2 ^ 63)), TxState.mk [] 0) := by
  constructor
  · decide
  · rfl

/-- C2 (amended): for a candidate cursor `c` representable as a
nonnegative `i64` (`c < 2^63`): if `c` is at most the stored cursor,
`process_for_id` returns `AlreadyProcessed c` without running the
processing closure and without touching the state; if `c` is strictly
greater, the cursor write and the closure's writes happen in one
transaction — on closure success both commit, and on closure error the
whole transaction rolls back, so the cursor is not advanced. -/
theorem process_for_id_cursor_gate (entity_id : List Nat)
    (entity_kind : EntityKind) (c : Nat)
    (f : TxState σ → Except MessageProcessingError (α × TxState σ))
    (s : TxState σ) :
    (((c : Int) ≤ lookupCursor s.cursors entity_id entity_kind →
        process_for_id entity_id entity_kind c f s =
          (.error (.AlreadyProcessed c), s)) ∧
      (lookupCursor s.cursors entity_id entity_kind < (c : Int) → c < 2 ^ 63 →
        process_for_id entity_id entity_kind c f s =
          match f { s with
              cursors := setCursor s.cursors entity_id entity_kind (c : Int) } with
          | .ok (v, s') => (.ok v, s')
          | .error e => (.error e, s))) := by
  constructor
  · intro hle
    have hnot : ¬ i64_of_u64 c > lookupCursor s.cursors entity_id entity_kind :=
      not_lt.mpr (le_trans (i64_of_u64_le c) hle)
    simp only [process_for_id, transaction, update_cursor, hnot, if_false,
      reduceIte]
    rfl
  · intro hlt hsmall
    have hcast : i64_of_u64 c = (c : Int) := by
      unfold i64_of_u64
      exact if_pos hsmall
    simp only [process_for_id, transaction, update_cursor, hcast]
    rw [if_pos hlt]
    cases hf : f { s with
        cursors := setCursor s.cursors entity_id entity_kind (c : Int) } with
    | ok p =>
      obtain ⟨v, s'⟩ := p
      rfl
    | error e => rfl

/-- Witness for `process_for_id_cursor_gate`: both branches instantiated
at concrete inputs. -/
theorem process_for_id_cursor_gate_witness :
    (process_for_id (σ := Nat) (α := Nat) [1] EntityKind.Group 5
        (fun st => .ok (7, { st with app := st.app + 1 }))
        (TxState.mk [(([1], EntityKind.Group), 5)] 0) =
      (.error (.AlreadyProcessed 5), TxState.mk [(([1], EntityKind.Group), 5)] 0)) ∧
    (process_for_id (σ := Nat) (α := Nat) [1] EntityKind.Group 6
        (fun st => .ok (7, { st with app := st.app + 1 }))
        (TxState.mk [(([1], EntityKind.Group), 5)] 0) =
      match (fun (st : TxState Nat) =>
          (.ok (7, { st with app := st.app + 1 }) :
            Except MessageProcessingError (Nat × TxState Nat)))
          { TxState.mk [(([1], EntityKind.Group), 5)] (0 : Nat) with
            cursors := setCursor [(([1], EntityKind.Group), 5)] [1]
              EntityKind.Group (6 : Int) } with
      | .ok (v, s') => (.ok v, s')
      | .error e => (.error e, TxState.mk [(([1], EntityKind.Group), 5)] 0)) := by
  constructor
  · exact (process_for_id_cursor_gate [1] EntityKind.Group 5
      (fun st => .ok (7, { st with app := st.app + 1 }))
      (TxState.mk [(([1], EntityKind.Group), 5)] 0)).1 (by decide)
  · exact (process_for_id_cursor_gate [1] EntityKind.Group 6
      (fun st => .ok (7, { st with app := st.app + 1 }))
      (TxState.mk [(([1], EntityKind.Group), 5)] 0)).2 (by decide) (by decide)

/-- Admin-list actions (`groups/intents.rs`). -/
inductive AdminListActionType
  | AddAdmin
  | RemoveAdmin
  | AddSuperAdmin
  | RemoveSuperAdmin
deriving DecidableEq, Repr

/-- Payload of an `AdminListUpdate` intent. -/
structure UpdateAdminListIntentData where
  action_type : AdminListActionType
  inbox_id : String
deriving DecidableEq, Repr

/-- The mutable-metadata extension payload
(`groups/group_mutable_metadata.rs`; spec section 3). -/
structure GroupMutableMetadata where
  attributes : List (String × String)
  admin_list : List String
  super_admin_list : List String
deriving DecidableEq, Repr

/-- The metadata rewrite at the heart of
`build_mutable_metadata_extensions_for_admin_lists_update`
(`groups/mod.rs` lines 788-821), translated branch by branch; extension
extraction and re-serialization around it are external. Note the source's
`RemoveSuperAdmin` arm calls `admin_list.retain(..)`
(`groups/mod.rs` line 811). -/
def build_mutable_metadata_extensions_for_admin_lists_update
    (existing_metadata : GroupMutableMetadata)
    (admin_lists_update : UpdateAdminListIntentData) : GroupMutableMetadata :=
  let attributes := existing_metadata.attributes
  let admin_list := existing_metadata.admin_list
  let super_admin_list := existing_metadata.super_admin_list
  match admin_lists_update.action_type with
  | .AddAdmin =>
    if admin_list.contains admin_lists_update.inbox_id then
      ⟨attributes, admin_list, super_admin_list⟩
    else ⟨attributes, admin_list ++ [admin_lists_update.inbox_id], super_admin_list⟩
  | .RemoveAdmin =>
    ⟨attributes,
      admin_list.filter fun x => !decide (x = admin_lists_update.inbox_id),
      super_admin_list⟩
  | .AddSuperAdmin =>
    if super_admin_list.contains admin_lists_update.inbox_id then
      ⟨attributes, admin_list, super_admin_list⟩
    else ⟨attributes, admin_list, super_admin_list ++ [admin_lists_update.inbox_id]⟩
  | .RemoveSuperAdmin =>
    ⟨attributes,
      admin_list.filter fun x => !decide (x = admin_lists_update.inbox_id),
      super_admin_list⟩

/-- C3 (code evaluation at the failing input): starting from metadata with
`admin_list = ["bob"]` and `super_admin_list = ["bob"]`, the
`RemoveSuperAdmin("bob")` rewrite leaves `super_admin_list` still holding
`"bob"` and instead strips `"bob"` from `admin_list` — the source's
`RemoveSuperAdmin` arm retains on the wrong list. -/
theorem remove_super_admin_failing_input :
    build_mutable_metadata_extensions_for_admin_lists_update
        ⟨[("group_name", "g")], ["bob"], ["bob"]⟩
        ⟨AdminListActionType.RemoveSuperAdmin, "bob"⟩ =
      ⟨[("group_name", "g")], [], ["bob"]⟩ := rfl

/-- Modelled from the spec: `MAX_GROUP_SIZE` (`configuration.rs`, not
under src/) defaults to 250. -/
def MAX_GROUP_SIZE : Nat := 250

/-- Intent kinds (`storage/group_intent.rs`; spec section 3). -/
inductive IntentKind
  | SendMessage
  | AddMembers
  | RemoveMembers
  | KeyUpdate
  | MetadataUpdate
  | AdminListUpdate
deriving DecidableEq, Repr

/-- A freshly created intent row (`NewGroupIntent`). -/
structure NewGroupIntent where
  kind : IntentKind
  group_id : List Nat
  data : List Nat
deriving DecidableEq, Repr

/-- Identity-component errors used by the embedded fragment. -/
inductive IdentityError
  | InstallationIdNotFound (inbox_id : String)
deriving DecidableEq, Repr

/-- The `GroupError` variants the embedded fragment can produce. -/
inductive GroupError
  | UserLimitExceeded
  | Identity (e : IdentityError)
  | Generic (cause : String)
deriving DecidableEq, Repr

/-- The function `sanitize_evm_addresses` lives in the external `xmtp_cryptography`
crate; it canonicalizes the addresses without changing their number, and
is modelled here as succeeding on its input. -/
def sanitize_evm_addresses (addrs : List String) : List String := addrs

/-- Structural stand-in for a protobuf string field encoding. -/
def encodeStringBytes (s : String) : List Nat :=
  s.length :: s.toList.map Char.toNat

/-- Structural stand-in for the `AddMembersIntentData` serialization. -/
def encodeAddMembersIntentData (addrs : List String) : List Nat :=
  addrs.foldr (fun a acc => encodeStringBytes a ++ acc) []

/-- Translation of `add_members` (`groups/mod.rs` lines 458-484): sanitize the addresses,
refuse with `UserLimitExceeded` when the current member count plus the new
addresses would exceed `MAX_GROUP_SIZE`, otherwise insert an `AddMembers`
intent row and sync it. The result triple is
(outcome, intent rows after the call, intents handed to the network
publish loop). -/
def add_members (member_count : Nat) (account_addresses_to_add : List String)
    (group_id : List Nat) (intents : List NewGroupIntent) :
    Except GroupError Unit × List NewGroupIntent × List NewGroupIntent :=
  let account_addresses := sanitize_evm_addresses account_addresses_to_add
  if member_count + account_addresses.length > MAX_GROUP_SIZE then
    (.error .UserLimitExceeded, intents, [])
  else
    let intent : NewGroupIntent :=
      ⟨.AddMembers, group_id, encodeAddMembersIntentData account_addresses⟩
    (.ok (), intents ++ [intent], [intent])

/-- C4: `add_members` fails with `UserLimitExceeded` exactly when the
current member count plus the number of addresses exceeds
`MAX_GROUP_SIZE` (250); in that case it returns before creating any
`AddMembers` intent (the intent table is unchanged and nothing reaches the
network), while up to exactly 250 total members the call does not raise
`UserLimitExceeded`. -/
theorem add_members_user_limit (member_count : Nat)
    (account_addresses_to_add : List String) (group_id : List Nat)
    (intents : List NewGroupIntent) :
    (member_count + account_addresses_to_add.length > MAX_GROUP_SIZE ∧
        add_members member_count account_addresses_to_add group_id intents =
          (.error .UserLimitExceeded, intents, [])) ∨
      (member_count + account_addresses_to_add.length ≤ MAX_GROUP_SIZE ∧
        (add_members member_count account_addresses_to_add group_id
            intents).1 = .ok ()) := by
  by_cases h : member_count + account_addresses_to_add.length > MAX_GROUP_SIZE
  · left
    refine ⟨h, ?_⟩
    simp only [add_members, sanitize_evm_addresses, h, reduceIte]
  · right
    refine ⟨not_lt.mp h, ?_⟩
    simp only [add_members, sanitize_evm_addresses, h, reduceIte]

theorem find?_eq_none_of {α : Type} (p : α → Bool) (l : List α)
    (h : ∀ a ∈ l, p a = false) : l.find? p = none := by
  induction l with
  | nil => rfl
  | cons a l ih =>
    have ha := h a (by simp)
    rw [List.find?_cons, ha]
    exact ih fun b hb => h b (by simp [hb])

theorem find?_append_of_none {α : Type} (p : α → Bool) (l₁ l₂ : List α)
    (h : l₁.find? p = none) : (l₁ ++ l₂).find? p = l₂.find? p := by
  induction l₁ with
  | nil => rfl
  | cons a l ih =>
    rw [List.find?_cons] at h
    cases hpa : p a with
    | true => simp [hpa] at h
    | false =>
      rw [List.cons_append, List.find?_cons, hpa]
      rw [hpa] at h
      exact ih h

theorem filter_eq_nil_of {α : Type} (p : α → Bool) (l : List α)
    (h : ∀ a ∈ l, p a = false) : l.filter p = [] := by
  induction l with
  | nil => rfl
  | cons a l ih =>
    have ha := h a (by simp)
    rw [List.filter_cons, ha]
    simp only [Bool.false_eq_true, if_false, reduceIte]
    exact ih fun b hb => h b (by simp [hb])

/-- Conversation types from the protected-metadata extension
(`groups/group_metadata.rs`). -/
inductive ConversationType
  | Group
  | Dm
  | Sync
deriving DecidableEq, Repr

/-- Membership states of a stored group row (spec section 3). -/
inductive GroupMembershipState
  | Allowed
  | Pending
  | Rejected
deriving DecidableEq, Repr

/-- Purpose of a stored group row (spec section 3). -/
inductive Purpose
  | Conversation
  | Sync
deriving DecidableEq, Repr

/-- A row of the `groups` table
(`storage/encrypted_store/schema.rs`; `storage/group.rs` is not under
src/, its constructors are modelled from the callers in `groups/mod.rs`
and the spec). The added-by column is the `added_by_address` argument the
callers supply. -/
structure StoredGroup where
  id : List Nat
  created_at_ns : Int
  membership_state : GroupMembershipState
  purpose : Purpose
  added_by_address : String
deriving DecidableEq, Repr

/-- Constructor `StoredGroup::new`: a conversation-purpose row. -/
def StoredGroup.new (id : List Nat) (created_at_ns : Int)
    (membership_state : GroupMembershipState) (added_by_address : String) :
    StoredGroup :=
  ⟨id, created_at_ns, membership_state, .Conversation, added_by_address⟩

/-- Constructor `StoredGroup::new_sync_group`: a sync-purpose row with no adder. -/
def StoredGroup.new_sync_group (id : List Nat) (created_at_ns : Int)
    (membership_state : GroupMembershipState) : StoredGroup :=
  ⟨id, created_at_ns, membership_state, .Sync, ""⟩

/-- Modelled from the spec: `insert_or_ignore_group` (`storage/group.rs`,
not under src/) — a duplicate `group_id` leaves the table untouched and
returns the existing row (insert-or-ignore semantics, spec section 4.5). -/
def insert_or_ignore_group (table : List StoredGroup) (g : StoredGroup) :
    StoredGroup × List StoredGroup :=
  match table.find? fun x => decide (x.id = g.id) with
  | some existing => (existing, table)
  | none => (g, table ++ [g])

/-- A welcome after HPKE decryption, TLS deserialization and MLS staging
(all external): the joined group id, the conversation type from the
protected metadata, and the welcome sender's credential data. -/
structure DecodedWelcome where
  group_id : List Nat
  conversation_type : ConversationType
  sender_inbox_id : String
  sender_signature_key : List Nat
deriving DecidableEq, Repr

/-- The `to_store` row that `create_from_welcome` builds
(`groups/mod.rs` lines 283-295): `Pending` for conversation and DM
welcomes, a sync group in `Allowed` state for sync welcomes. -/
def welcomeStoredGroup (now : Int) (welcome : DecodedWelcome)
    (added_by_address : String) : StoredGroup :=
  match welcome.conversation_type with
  | .Group => StoredGroup.new welcome.group_id now .Pending added_by_address
  | .Dm => StoredGroup.new welcome.group_id now .Pending added_by_address
  | .Sync => StoredGroup.new_sync_group welcome.group_id now .Allowed

/-- Translation of `create_from_welcome` (`groups/mod.rs` lines 268-304): build the
`to_store` row and insert-or-ignore it; the MLS state save preceding it is
external. Returns the stored row and the new table. -/
def create_from_welcome (now : Int) (welcome : DecodedWelcome)
    (added_by_address : String) (table : List StoredGroup) :
    StoredGroup × List StoredGroup :=
  insert_or_ignore_group table (welcomeStoredGroup now welcome added_by_address)

/-- Modelled from the spec:
`Identity::get_validated_account_address(credential_identity, pub_key)`
(`identity.rs`, not under src/) parses the credential, looks up the
association state of the embedded inbox id, and returns the account
address that currently owns the signature public key (spec section 4.2).
The directory lists `(inbox_id, installation_key, account_address)`
facts. -/
def get_validated_account_address
    (directory : List (String × List Nat × String))
    (credential_inbox_id : String) (signature_public_key : List Nat) :
    Except IdentityError String :=
  match directory.find? fun e =>
      decide (e.1 = credential_inbox_id ∧ e.2.1 = signature_public_key) with
  | some e => .ok e.2.2
  | none => .error (.InstallationIdNotFound credential_inbox_id)

/-- Translation of `create_from_encrypted_welcome` (`groups/mod.rs` lines 307-329):
after decryption and staging (external), extract the welcome sender's
credential, validate it via the identity component, and create the group
with the returned account address as the added-by value. -/
def create_from_encrypted_welcome
    (directory : List (String × List Nat × String)) (now : Int)
    (welcome : DecodedWelcome) (table : List StoredGroup) :
    Except GroupError (StoredGroup × List StoredGroup) :=
  match get_validated_account_address directory welcome.sender_inbox_id
      welcome.sender_signature_key with
  | .error e => .error (.Identity e)
  | .ok account_address =>
    .ok (create_from_welcome now welcome account_address table)

theorem welcomeStoredGroup_id (now : Int) (welcome : DecodedWelcome)
    (added_by_address : String) :
    (welcomeStoredGroup now welcome added_by_address).id = welcome.group_id := by
  cases h : welcome.conversation_type <;>
    simp [welcomeStoredGroup, h, StoredGroup.new, StoredGroup.new_sync_group]

/-- C5 (counterexample): the association directory maps inbox id
`"inbox-1"` with installation key `[7]` to account address `"0xabc"`.
Processing a conversation welcome whose sender credential embeds
`"inbox-1"` inserts a `Pending` row whose added-by field is the account
address `"0xabc"`, which differs from the sender's inbox id — so the
claim's "added-by field set to the welcome sender's inbox id" is false. -/
theorem create_from_encrypted_welcome_added_by_counterexample :
    create_from_encrypted_welcome [("inbox-1", ([7], "0xabc"))] 100
        ⟨[1, 2], ConversationType.Group, "inbox-1", [7]⟩ [] =
      .ok (⟨[1, 2], 100, .Pending, .Conversation, "0xabc"⟩,
        [⟨[1, 2], 100, .Pending, .Conversation, "0xabc"⟩]) ∧
    ("0xabc" : String) ≠ "inbox-1" := by
  exact ⟨rfl, by decide⟩

/-- C5 (amended): for every successfully processed inbound welcome of a
conversation (or DM) group joining a group id not yet in the table, the
group row is inserted with `membership_state = Pending` and its added-by
field set to the account address returned by validating the welcome
sender's credential through the identity component. -/
theorem create_from_encrypted_welcome_pending_added_by
    (directory : List (String × List Nat × String)) (now : Int)
    (welcome : DecodedWelcome) (table : List StoredGroup)
    (account_address : String)
    (hacct : get_validated_account_address directory welcome.sender_inbox_id
        welcome.sender_signature_key = .ok account_address)
    (hconv : welcome.conversation_type = ConversationType.Group ∨
      welcome.conversation_type = ConversationType.Dm)
    (hfresh : ∀ g ∈ table, g.id ≠ welcome.group_id) :
    create_from_encrypted_welcome directory now welcome table =
      .ok (StoredGroup.new welcome.group_id now .Pending account_address,
        table ++ [StoredGroup.new welcome.group_id now .Pending account_address]) := by
  have hrow : welcomeStoredGroup now welcome account_address =
      StoredGroup.new welcome.group_id now .Pending account_address := by
    rcases hconv with h | h <;> simp [welcomeStoredGroup, h]
  have hnone : table.find?
      (fun x => decide (x.id = (StoredGroup.new welcome.group_id now .Pending
        account_address).id)) = none := by
    refine find?_eq_none_of _ _ fun g hg => ?_
    simp [StoredGroup.new, hfresh g hg]
  simp only [create_from_encrypted_welcome, hacct, create_from_welcome, hrow,
    insert_or_ignore_group, hnone]

/-- Witness for `create_from_encrypted_welcome_pending_added_by` at a
concrete DM welcome. -/
theorem create_from_encrypted_welcome_pending_added_by_witness :
    create_from_encrypted_welcome [("inbox-9", ([3], "0xdef"))] 42
        ⟨[9], ConversationType.Dm, "inbox-9", [3]⟩ [] =
      .ok (StoredGroup.new [9] 42 .Pending "0xdef",
        [StoredGroup.new [9] 42 .Pending "0xdef"]) := by
  exact create_from_encrypted_welcome_pending_added_by
    [("inbox-9", ([3], "0xdef"))] 42 ⟨[9], ConversationType.Dm, "inbox-9", [3]⟩
    [] "0xdef" rfl (Or.inr rfl) (by simp)

/-- C6: welcome processing is idempotent at the store level. Starting from
a table with no row for the welcome's group id, the first processing
inserts exactly one row; reprocessing a welcome for the same group id (at
any later time and with any adder) returns the existing row, leaves the
table — and hence every field of the existing row — unchanged, and is not
an error (the function is total and returns the row). -/
theorem create_from_welcome_idempotent (now1 now2 : Int)
    (welcome : DecodedWelcome) (a1 a2 : String) (table : List StoredGroup)
    (hfresh : ∀ g ∈ table, g.id ≠ welcome.group_id) :
    create_from_welcome now2 welcome a2
        (create_from_welcome now1 welcome a1 table).2 =
      ((create_from_welcome now1 welcome a1 table).1,
        (create_from_welcome now1 welcome a1 table).2) ∧
    ((create_from_welcome now1 welcome a1 table).2.filter
        (fun g => decide (g.id = welcome.group_id))).length = 1 := by
  have hnone : ∀ a : String, table.find?
      (fun x => decide (x.id = welcome.group_id)) = none := by
    intro a
    exact find?_eq_none_of _ _ fun g hg => by simp [hfresh g hg]
  have hid1 := welcomeStoredGroup_id now1 welcome a1
  have hid2 := welcomeStoredGroup_id now2 welcome a2
  simp only [create_from_welcome, insert_or_ignore_group, hid1, hid2]
  rw [hnone a1]
  constructor
  · have happ : ((table ++ [welcomeStoredGroup now1 welcome a1]).find?
        (fun x => decide (x.id = welcome.group_id))) =
        some (welcomeStoredGroup now1 welcome a1) := by
      rw [find?_append_of_none _ _ _ (hnone a1)]
      simp [List.find?_cons, hid1]
    rw [happ]
  · rw [List.filter_append]
    rw [filter_eq_nil_of _ _ fun g hg => by simp [hfresh g hg]]
    simp [List.filter_cons, hid1]

/-- Witness for `create_from_welcome_idempotent` at a concrete welcome. -/
theorem create_from_welcome_idempotent_witness :
    create_from_welcome 8 ⟨[5], ConversationType.Group, "i", [1]⟩ "0xb"
        (create_from_welcome 7 ⟨[5], ConversationType.Group, "i", [1]⟩ "0xa" []).2 =
      ((create_from_welcome 7 ⟨[5], ConversationType.Group, "i", [1]⟩ "0xa" []).1,
        (create_from_welcome 7 ⟨[5], ConversationType.Group, "i", [1]⟩ "0xa" []).2) ∧
    ((create_from_welcome 7 ⟨[5], ConversationType.Group, "i", [1]⟩ "0xa" []).2.filter
        (fun g => decide (g.id = [5]))).length = 1 := by
  exact create_from_welcome_idempotent 7 8 ⟨[5], ConversationType.Group, "i", [1]⟩
    "0xa" "0xb" [] (by simp)

/-- C8: a welcome whose protected metadata marks the conversation type as
`Sync` is inserted `Allowed` with purpose `Sync`, while conversation and
DM welcomes are inserted `Pending` with purpose `Conversation`. -/
theorem create_from_welcome_sync_vs_conversation (now : Int)
    (welcome : DecodedWelcome) (added_by_address : String)
    (table : List StoredGroup)
    (hfresh : ∀ g ∈ table, g.id ≠ welcome.group_id) :
    (welcome.conversation_type = ConversationType.Sync →
      (create_from_welcome now welcome added_by_address table).1.membership_state =
          GroupMembershipState.Allowed ∧
        (create_from_welcome now welcome added_by_address table).1.purpose =
          Purpose.Sync) ∧
    (welcome.conversation_type ≠ ConversationType.Sync →
      (create_from_welcome now welcome added_by_address table).1.membership_state =
          GroupMembershipState.Pending ∧
        (create_from_welcome now welcome added_by_address table).1.purpose =
          Purpose.Conversation) := by
  have hnone : table.find?
      (fun x => decide (x.id = welcome.group_id)) = none :=
    find?_eq_none_of _ _ fun g hg => by simp [hfresh g hg]
  have hrow : (create_from_welcome now welcome added_by_address table).1 =
      welcomeStoredGroup now welcome added_by_address := by
    simp only [create_from_welcome, insert_or_ignore_group,
      welcomeStoredGroup_id, hnone]
  rw [hrow]
  constructor
  · intro hsy
    simp [welcomeStoredGroup, hsy, StoredGroup.new_sync_group]
  · intro hsy
    cases h : welcome.conversation_type with
    | Group => simp [welcomeStoredGroup, h, StoredGroup.new]
    | Dm => simp [welcomeStoredGroup, h, StoredGroup.new]
    | Sync => exact absurd h hsy

/-- Witness for `create_from_welcome_sync_vs_conversation`: both branches
at concrete sync and conversation welcomes. -/
theorem create_from_welcome_sync_vs_conversation_witness :
    ((create_from_welcome 3 ⟨[4], ConversationType.Sync, "i", [2]⟩ "0xa" []).1.membership_state =
        GroupMembershipState.Allowed ∧
      (create_from_welcome 3 ⟨[4], ConversationType.Sync, "i", [2]⟩ "0xa" []).1.purpose =
        Purpose.Sync) ∧
    ((create_from_welcome 3 ⟨[4], ConversationType.Group, "i", [2]⟩ "0xa" []).1.membership_state =
        GroupMembershipState.Pending ∧
      (create_from_welcome 3 ⟨[4], ConversationType.Group, "i", [2]⟩ "0xa" []).1.purpose =
        Purpose.Conversation) := by
  constructor
  · exact (create_from_welcome_sync_vs_conversation 3
      ⟨[4], ConversationType.Sync, "i", [2]⟩ "0xa" [] (by simp)).1 rfl
  · exact (create_from_welcome_sync_vs_conversation 3
      ⟨[4], ConversationType.Group, "i", [2]⟩ "0xa" [] (by simp)).2 (by simp)

/-- The `V1` variant of a plaintext envelope
(`xmtp_proto` `message_contents::plaintext_envelope`). -/
structure EnvelopeV1 where
  content : List Nat
  idempotency_key : String
deriving DecidableEq, Repr

/-- Content variants of a plaintext envelope. -/
inductive EnvelopeContent
  | v1 (v : EnvelopeV1)
deriving DecidableEq, Repr

/-- A plaintext envelope as sent on the wire before MLS encryption. -/
structure PlaintextEnvelope where
  content : Option EnvelopeContent
deriving DecidableEq, Repr

/-- Translation of `MlsGroup::into_envelope` (`groups/mod.rs` lines 426-433): wrap the
payload in a `V1` plaintext envelope carrying the idempotency key. -/
def into_envelope (encoded_msg : List Nat) (idempotency_key : String) :
    PlaintextEnvelope :=
  ⟨some (.v1 ⟨encoded_msg, idempotency_key⟩)⟩

/-- Structural stand-in for the prost protobuf encoding of a plaintext
envelope (the byte-level wire format is external). -/
def encodePlaintextEnvelope (e : PlaintextEnvelope) : List Nat :=
  match e.content with
  | none => [0]
  | some (.v1 v) =>
    1 :: v.content.length :: v.content ++ encodeStringBytes v.idempotency_key

/-- Kinds of stored group messages (spec section 3). -/
inductive GroupMessageKind
  | Application
  | MembershipChange
deriving DecidableEq, Repr

/-- Delivery status of a stored group message (spec section 3). -/
inductive DeliveryStatus
  | Unpublished
  | Published
  | Failed
deriving DecidableEq, Repr

/-- A row of the `group_messages` table (`storage/group_message.rs`,
modelled from the construction in `groups/mod.rs` lines 407-416 and the
schema). -/
structure StoredGroupMessage where
  id : List Nat
  group_id : List Nat
  decrypted_message_bytes : List Nat
  sent_at_ns : Int
  kind : GroupMessageKind
  sender_installation_id : List Nat
  sender_account_address : String
  delivery_status : DeliveryStatus
deriving DecidableEq, Repr

/-- Modelled from the spec: `calculate_message_id` (`utils/id.rs`, not
under src/) is the deterministic hash
`H(group_id, payload, sender, idempotency_key)` (spec section 3); the
sha256 hash is modelled by an injective length-tagged concatenation of the
four inputs. -/
def calculate_message_id (group_id : List Nat) (message : List Nat)
    (sender : String) (idempotency_key : String) : List Nat :=
  group_id.length :: group_id ++ message.length :: message ++
    encodeStringBytes sender ++ encodeStringBytes idempotency_key

/-- The group-scoped store rows touched by `send_message`. -/
structure SendStore where
  intents : List NewGroupIntent
  messages : List StoredGroupMessage
deriving DecidableEq, Repr

/-- Translation of `MlsGroup::send_message` (`groups/mod.rs` lines 374-424): encode a
`V1` plaintext envelope whose idempotency key is the current nanosecond
time rendered in decimal, store a `SendMessage` intent with the encoded
envelope, insert the unpublished stored message under its deterministic
id, then fire the publish loop and only log any publish error. The clock
read (`now_ns`) and the publish outcome are passed in as parameters; the
installation-update refresh preceding the send is external. -/
def send_message (now : Nat) (group_id : List Nat)
    (sender_account_address : String) (sender_installation_id : List Nat)
    (message : List Nat) (st : SendStore)
    (publish_result : Except GroupError Unit) : List Nat × SendStore :=
  let plain_envelope := into_envelope message (toString now)
  let encoded_envelope := encodePlaintextEnvelope plain_envelope
  let intent : NewGroupIntent := ⟨.SendMessage, group_id, encoded_envelope⟩
  let message_id :=
    calculate_message_id group_id message sender_account_address (toString now)
  let group_message : StoredGroupMessage :=
    ⟨message_id, group_id, message, (now : Int), .Application,
      sender_installation_id, sender_account_address, .Unpublished⟩
  let st' : SendStore :=
    ⟨st.intents ++ [intent], st.messages ++ [group_message]⟩
  match publish_result with
  | .ok _ => (message_id, st')
  | .error _ => (message_id, st')

/-- C7: `send_message` appends a `SendMessage` intent carrying exactly the
encoded `V1` plaintext envelope whose content is the payload and whose
idempotency key is the nanosecond clock value rendered as a decimal
string, inserts a stored group message with `delivery_status =
Unpublished` whose id is the deterministic hash of group id, payload,
sender, and idempotency key, and returns that message id. -/
theorem send_message_stores_intent_and_message (now : Nat)
    (group_id : List Nat) (sender_account_address : String)
    (sender_installation_id : List Nat) (message : List Nat)
    (st : SendStore) (publish_result : Except GroupError Unit) :
    send_message now group_id sender_account_address sender_installation_id
        message st publish_result =
      (calculate_message_id group_id message sender_account_address
          (toString now),
        ⟨st.intents ++ [⟨.SendMessage, group_id,
            encodePlaintextEnvelope (into_envelope message (toString now))⟩],
          st.messages ++ [⟨calculate_message_id group_id message
              sender_account_address (toString now), group_id, message,
            (now : Int), .Application, sender_installation_id,
            sender_account_address, .Unpublished⟩]⟩) := by
  cases publish_result <;> rfl

/-- C10: the publish outcome does not influence `send_message`'s result —
a publish failure is swallowed (only logged), the call still returns the
message id, and the intent row and the unpublished stored message inserted
earlier stay in the store exactly as written. -/
theorem send_message_swallows_publish_error (now : Nat)
    (group_id : List Nat) (sender_account_address : String)
    (sender_installation_id : List Nat) (message : List Nat)
    (st : SendStore) (e : GroupError) :
    send_message now group_id sender_account_address sender_installation_id
        message st (.error e) =
      send_message now group_id sender_account_address sender_installation_id
        message st (.ok ()) ∧
    (send_message now group_id sender_account_address sender_installation_id
        message st (.error e)).1 =
      calculate_message_id group_id message sender_account_address
        (toString now) ∧
    (send_message now group_id sender_account_address sender_installation_id
        message st (.error e)).2 =
      ⟨st.intents ++ [⟨.SendMessage, group_id,
          encodePlaintextEnvelope (into_envelope message (toString now))⟩],
        st.messages ++ [⟨calculate_message_id group_id message
            sender_account_address (toString now), group_id, message,
          (now : Int), .Application, sender_installation_id,
          sender_account_address, .Unpublished⟩]⟩ :=
  ⟨rfl, rfl, rfl⟩

end Mls
